import Mathlib

/-!
Shallow embedding of the real-time conversation and presence layer of the
notetake application (server/config/socket.ts, server/routes/conversations.ts,
server/routes/messages.ts, and the Conversation / Message / User mongoose
schemas).  Documents are plain records, the store is a record of lists, and
each HTTP / socket handler is a pure function from the store (plus the
request data) to the new store together with its response, emitted socket
events and, where a claim needs it, the trace of attempted store writes.
-/

namespace Notetake

/-- JavaScript `String.prototype.trim`: strip leading and trailing
whitespace.  Modelled structurally over the character list so that it
evaluates inside the kernel. -/
def jsTrim (s : String) : String :=
  String.mk (((s.data.dropWhile Char.isWhitespace).reverse.dropWhile Char.isWhitespace).reverse)

/-- JavaScript `s.substring(0, n)`: the first `n` characters of `s`. -/
def jsSubstring (s : String) (n : Nat) : String :=
  String.mk (s.data.take n)

/-- JavaScript `s.length` (character count in this model). -/
def jsLength (s : String) : Nat :=
  s.data.length

/-- `[...new Set(l)]`: deduplicate keeping the first occurrence of each
element, as a JavaScript `Set` does. -/
def jsSetDedup (l : List Nat) : List Nat :=
  go l []
where
  go : List Nat → List Nat → List Nat
    | [], _ => []
    | x :: xs, seen => if x ∈ seen then go xs seen else x :: go xs (x :: seen)

/-- `server/models/Conversation.ts`: `export const MAX_GROUP_SIZE = 20`. -/
def MAX_GROUP_SIZE : Nat := 20

inductive ConvType
  | personal
  | group
deriving DecidableEq, Repr

/-- The denormalized `lastMessage` snapshot stored on a conversation. -/
structure LastMessage where
  content : String
  sender : Nat
  createdAt : Nat
deriving DecidableEq, Repr

/-- A `Conversation` document (`server/models/Conversation.ts`). -/
structure Conversation where
  id : Nat
  ctype : ConvType
  participants : List Nat
  name : Option String
  admin : Option Nat
  lastMessage : Option LastMessage
deriving DecidableEq, Repr

/-- A `Message` document (`server/models/Message.ts`). -/
structure Message where
  id : Nat
  conversation : Nat
  sender : Nat
  content : String
  readBy : List Nat
  createdAt : Nat
deriving DecidableEq, Repr

/-- The part of a `User` document the gateway mutates
(`server/models/User.ts`: `isOnline`, `lastSeen`). -/
structure UserDoc where
  id : Nat
  isOnline : Bool
  lastSeen : Nat
deriving DecidableEq, Repr

inductive FriendStatus
  | pending
  | accepted
  | declined
  | blocked
deriving DecidableEq, Repr

/-- A `Friendship` document: ordered pair plus status. -/
structure Friendship where
  requester : Nat
  recipient : Nat
  status : FriendStatus
deriving DecidableEq, Repr

/-- The durable store: one list per collection plus a fresh-id counter
standing for the store's id generation. -/
structure DB where
  users : List UserDoc
  conversations : List Conversation
  messages : List Message
  friendships : List Friendship
  nextId : Nat
deriving DecidableEq, Repr

/-! ### Socket event model

`socket.emit` targets one socket; `io.to(room).emit` targets every socket
joined to the room (the emitting socket included, when joined);
`socket.to(room).emit` excludes the emitting socket;
`socket.broadcast.emit` targets every socket except the emitting one. -/

inductive EmitKind
  | toSocket (sid : Nat)
  | toRoomAll (room : String)
  | toRoomExcept (room : String) (sid : Nat)
  | broadcastExcept (sid : Nat)
deriving DecidableEq, Repr

inductive Payload
  | errorMsg (text : String)
  | messageReceive (messageId : Nat) (conversationId : Nat)
  | readUpdate (conversationId : Nat) (userId : Nat)
  | presence (userId : Nat)
  | typingUpdate (userId : Nat) (conversationId : Nat) (isTyping : Bool)
deriving DecidableEq, Repr

structure SocketEvent where
  kind : EmitKind
  name : String
  payload : Payload
deriving DecidableEq, Repr

/-- A live connection: socket id, authenticated user, joined rooms. -/
structure Conn where
  sid : Nat
  uid : Nat
  rooms : List String
deriving DecidableEq, Repr

/-- Whether an emitted event is delivered to a given connection, per the
socket.io semantics of each emission form. -/
def deliveredTo (e : SocketEvent) (c : Conn) : Bool :=
  match e.kind with
  | .toSocket s => c.sid = s
  | .toRoomAll r => r ∈ c.rooms
  | .toRoomExcept r s => r ∈ c.rooms ∧ ¬ c.sid = s
  | .broadcastExcept s => ¬ c.sid = s

/-- The room name for a conversation: `` `conversation:${id}` ``. -/
def convRoom (cid : Nat) : String :=
  "conversation:" ++ toString cid

/-- `Conversation.findOne({ _id: conversationId, participants: userId })`. -/
def findConvParticipant (db : DB) (cid uid : Nat) : Option Conversation :=
  db.conversations.find? (fun c => decide (c.id = cid ∧ uid ∈ c.participants))

/-- `User.findByIdAndUpdate(userId, ...)`: update the user document with
that id (ids are unique in the store). -/
def userUpdate (db : DB) (uid : Nat) (f : UserDoc → UserDoc) : DB :=
  { db with users := db.users.map (fun u => if u.id = uid then f u else u) }

/-- Look a user document up by id. -/
def getUser (db : DB) (uid : Nat) : Option UserDoc :=
  db.users.find? (fun u => decide (u.id = uid))

/-- `conversation.save()` after mutating the found document: write the
document with that id back (ids are unique in the store). -/
def saveConvParticipants (db : DB) (cid : Nat) (parts : List Nat) : DB :=
  { db with conversations :=
      db.conversations.map (fun c => if c.id = cid then { c with participants := parts } else c) }

/-- The `messageSchema` content validation (`server/models/Message.ts`):
`required: true` (a String is rejected when empty) and `maxlength: 2000`.
The schema's `trim: true` setter is the identity on the value the handlers
pass, which is already trimmed. -/
def msgContentValid (v : String) : Bool :=
  ¬ v = "" ∧ jsLength v ≤ 2000

/-- A store write attempt, recorded in the order the handler issues it. -/
inductive StoreOp
  | messageCreate (conversationId sender : Nat) (content : String)
  | conversationSave (conversationId : Nat)
deriving DecidableEq, Repr

/-- Result of the socket `message:send` handler: new store, emitted events,
and the trace of store write attempts. -/
structure SendOut where
  db : DB
  events : List SocketEvent
  ops : List StoreOp
deriving DecidableEq, Repr

/-- The `message:send` socket handler (`server/config/socket.ts` 73-122).
Looks the conversation up with the sender as participant; on failure emits a
private `error` event.  Otherwise attempts `Message.create` (whose schema
validates the content), updates the conversation's `lastMessage`
(`content.trim().substring(0, 100)`, sender, now) and emits
`message:receive` to the conversation room.  A `Message.create` validation
failure is caught and reported privately as a generic error. -/
def messageSend (db : DB) (uid sid cid : Nat) (content : String) (now : Nat) : SendOut :=
  match findConvParticipant db cid uid with
  | none => ⟨db, [⟨.toSocket sid, "error", .errorMsg "Conversation not found"⟩], []⟩
  | some _ =>
    let trimmed := jsTrim content
    if msgContentValid trimmed then
      let m : Message := ⟨db.nextId, cid, uid, trimmed, [uid], now⟩
      let lm : LastMessage := ⟨jsSubstring trimmed 100, uid, now⟩
      let db1 : DB := { db with
        messages := db.messages ++ [m],
        nextId := db.nextId + 1,
        conversations :=
          db.conversations.map (fun c => if c.id = cid then { c with lastMessage := some lm } else c) }
      ⟨db1,
        [⟨.toRoomAll (convRoom cid), "message:receive", .messageReceive m.id cid⟩],
        [.messageCreate cid uid trimmed, .conversationSave cid]⟩
    else
      ⟨db, [⟨.toSocket sid, "error", .errorMsg "Failed to send message"⟩],
        [.messageCreate cid uid trimmed]⟩

/-- The effect of
`Message.updateMany({conversation: cid, readBy: {$ne: uid}}, {$addToSet: {readBy: uid}})`:
add `uid` to the read-by list of every message of the conversation that does
not already contain it. -/
def markReadMsgs (msgs : List Message) (uid cid : Nat) : List Message :=
  msgs.map (fun m =>
    if m.conversation = cid ∧ uid ∉ m.readBy then { m with readBy := m.readBy ++ [uid] } else m)

/-- The `messages:read` socket handler (`server/config/socket.ts` 142-161):
no conversation or participant check — it applies the read update and emits
`messages:read:update` to the conversation room. -/
def messagesReadSocket (db : DB) (uid cid : Nat) : DB × List SocketEvent :=
  ({ db with messages := markReadMsgs db.messages uid cid },
   [⟨.toRoomAll (convRoom cid), "messages:read:update", .readUpdate cid uid⟩])

/-- `PUT /api/messages/read/:conversationId`
(`server/routes/messages.ts` 104-134): verifies the caller is a participant
(404 otherwise) and then applies the same read update.  Returns the new
store and the HTTP status. -/
def restMarkRead (db : DB) (uid cid : Nat) : DB × Nat :=
  match findConvParticipant db cid uid with
  | none => (db, 404)
  | some _ => ({ db with messages := markReadMsgs db.messages uid cid }, 200)

/-- `Friendship.findOne({$or: [{requester: u, recipient: v}, {requester: v, recipient: u}], status: "accepted"})`
as a boolean. -/
def areFriends (db : DB) (u v : Nat) : Bool :=
  db.friendships.any (fun f =>
    decide (((f.requester = u ∧ f.recipient = v) ∨ (f.requester = v ∧ f.recipient = u))
      ∧ f.status = FriendStatus.accepted))

/-- The group lookup filter
`{ _id: conversationId, type: "group", admin: userId }` as a boolean
predicate on a conversation document. -/
def groupAdminPred (cid uid : Nat) (c : Conversation) : Bool :=
  decide (c.id = cid ∧ c.ctype = ConvType.group ∧ c.admin = some uid)

/-- `PUT /api/conversations/:id/members`
(`server/routes/conversations.ts` 196-269).  Finds the group with the caller
as admin (404 otherwise).  `add`: rejects when
`participants.length + memberIds.length > MAX_GROUP_SIZE` or some new member
is not a friend of the admin, else stores the deduplicated union.
`remove`: rejects when the admin is among the removed ids or the filtered
list has fewer than 2 members, else stores the filtered list.  On every
rejection the handler returns before `conversation.save()`, so the store is
unchanged.  Returns the new store and the HTTP status. -/
def updateMembers (db : DB) (uid cid : Nat) (action : String) (memberIds : List Nat) :
    DB × Nat :=
  match db.conversations.find? (groupAdminPred cid uid) with
  | none => (db, 404)
  | some conversation =>
    if action = "add" then
      let newSize := conversation.participants.length + memberIds.length
      if newSize > MAX_GROUP_SIZE then (db, 400)
      else if memberIds.all (fun m => areFriends db uid m) then
        (saveConvParticipants db cid (jsSetDedup (conversation.participants ++ memberIds)), 200)
      else (db, 400)
    else if action = "remove" then
      if uid ∈ memberIds then (db, 400)
      else
        let parts := conversation.participants.filter (fun p => ! decide (p ∈ memberIds))
        if parts.length < 2 then (db, 400)
        else (saveConvParticipants db cid parts, 200)
    else (db, 400)

/-- `DELETE /api/conversations/:id`
(`server/routes/conversations.ts` 306-346).  Personal: delete the
conversation's messages and the conversation.  Group, caller is admin: the
same cascade.  Group, caller a non-admin participant: filter the caller out
of the participants and save — with no lower-bound check.  Returns the new
store, the HTTP status and the response message. -/
def deleteConversation (db : DB) (uid cid : Nat) : DB × Nat × String :=
  match findConvParticipant db cid uid with
  | none => (db, 404, "Conversation not found")
  | some conversation =>
    if conversation.ctype = ConvType.personal then
      ({ db with
          messages := db.messages.filter (fun m => decide (¬ m.conversation = cid)),
          conversations := db.conversations.filter (fun c => decide (¬ c.id = cid)) },
        200, "Conversation deleted")
    else if conversation.admin = some uid then
      ({ db with
          messages := db.messages.filter (fun m => decide (¬ m.conversation = cid)),
          conversations := db.conversations.filter (fun c => decide (¬ c.id = cid)) },
        200, "Group deleted")
    else
      (saveConvParticipants db cid
        (conversation.participants.filter (fun p => decide (¬ p = uid))),
       200, "Left group")

/-- `GET /api/conversations/:id`: 404 unless a conversation with that id has
the caller among its participants (status only; the claims need no body). -/
def getConversation (db : DB) (uid cid : Nat) : Nat :=
  match findConvParticipant db cid uid with
  | none => 404
  | some _ => 200

/-- The personal-conversation lookup filter
`{ type: "personal", participants: { $all: ps, $size: 2 } }` as a boolean
predicate on a conversation document. -/
def personalPairPred (ps : List Nat) (c : Conversation) : Bool :=
  decide (c.ctype = ConvType.personal
    ∧ (∀ p ∈ ps, p ∈ c.participants)
    ∧ c.participants.length = 2)

/-- Result of the personal-conversation creation route. -/
structure ConvCreateOut where
  db : DB
  status : Nat
  convId : Option Nat
deriving DecidableEq, Repr

/-- `POST /api/conversations`, personal branch
(`server/routes/conversations.ts` 46-97).  `allParticipants` is the
deduplicated `[userId, ...participantIds]`; requires exactly 2 of them and
an accepted friendship with `participantIds[0]`; returns the existing
personal conversation holding both participants with size 2 when one
exists, else creates one. -/
def createPersonalConversation (db : DB) (uid : Nat) (participantIds : List Nat) :
    ConvCreateOut :=
  let allParticipants := jsSetDedup (uid :: participantIds)
  if allParticipants.length = 2 then
    match participantIds with
    | [] => ⟨db, 400, none⟩
    | p0 :: _ =>
      if areFriends db uid p0 then
        match db.conversations.find? (personalPairPred allParticipants) with
        | some existing => ⟨db, 200, some existing.id⟩
        | none =>
          ⟨{ db with
              conversations :=
                db.conversations ++ [⟨db.nextId, ConvType.personal, allParticipants, none, none, none⟩],
              nextId := db.nextId + 1 },
            201, some db.nextId⟩
      else ⟨db, 400, none⟩
  else ⟨db, 400, none⟩

/-! ### Presence registry and connection lifecycle -/

/-- `onlineUsers.set(userId, socketId)`: a `Map` holds at most one entry per
key, so setting replaces any existing entry. -/
def regSet (reg : List (Nat × Nat)) (u s : Nat) : List (Nat × Nat) :=
  (u, s) :: reg.filter (fun e => decide (¬ e.1 = u))

/-- `onlineUsers.delete(userId)`. -/
def regDelete (reg : List (Nat × Nat)) (u : Nat) : List (Nat × Nat) :=
  reg.filter (fun e => decide (¬ e.1 = u))

/-- `onlineUsers.get(userId)` / `onlineUsers.has(userId)`. -/
def regGet (reg : List (Nat × Nat)) (u : Nat) : Option Nat :=
  (reg.find? (fun e => decide (e.1 = u))).map (fun e => e.2)

/-- The connection handler (`server/config/socket.ts` 40-60): register the
user in the presence registry, mark the user durably online, and broadcast
`user:online` to every other connection.  (Room joins do not affect the
store or registry and are omitted from the returned state.) -/
def connectHandler (db : DB) (reg : List (Nat × Nat)) (uid sid : Nat) :
    DB × List (Nat × Nat) × List SocketEvent :=
  (userUpdate db uid (fun u => { u with isOnline := true }),
   regSet reg uid sid,
   [⟨.broadcastExcept sid, "user:online", .presence uid⟩])

/-- The disconnect handler (`server/config/socket.ts` 164-176): remove the
registry entry, mark the user durably offline with `lastSeen = now`, and
broadcast `user:offline` to every other connection. -/
def disconnectHandler (db : DB) (reg : List (Nat × Nat)) (uid sid now : Nat) :
    DB × List (Nat × Nat) × List SocketEvent :=
  (userUpdate db uid (fun u => { u with isOnline := false, lastSeen := now }),
   regDelete reg uid,
   [⟨.broadcastExcept sid, "user:offline", .presence uid⟩])


/-! ### Concrete sample stores used by witnesses and counterexamples -/

/-- A small store: users 1,2,3; a group conversation 0 of 1 and 2 with
admin 1; a personal conversation 5 of 1 and 3; one message in
conversation 0 sent and read by 2; friendships 1-2 and 1-3. -/
def sampleDB : DB :=
  ⟨[⟨1, false, 0⟩, ⟨2, false, 0⟩, ⟨3, false, 0⟩],
   [⟨0, ConvType.group, [1, 2], some "G", some 1, none⟩,
    ⟨5, ConvType.personal, [1, 3], none, none, none⟩],
   [⟨7, 0, 2, "yo", [2], 1⟩],
   [⟨1, 2, FriendStatus.accepted⟩, ⟨1, 3, FriendStatus.accepted⟩],
   10⟩

/-- The number of personal conversations holding both `a` and `b` with
exactly two participants. -/
def personalPairCount (db : DB) (a b : Nat) : Nat :=
  (db.conversations.filter (fun c => decide (c.ctype = ConvType.personal
     ∧ a ∈ c.participants ∧ b ∈ c.participants ∧ c.participants.length = 2))).length

/-- One `PUT /:id/members` request. -/
structure MemberOp where
  caller : Nat
  cid : Nat
  action : String
  memberIds : List Nat
deriving DecidableEq, Repr

/-- Run a sequence of member add/remove requests against the store. -/
def applyMemberOps (db : DB) (ops : List MemberOp) : DB :=
  ops.foldl (fun d op => (updateMembers d op.caller op.cid op.action op.memberIds).1) db

/-- The group invariant: every group conversation's participant list is
duplicate-free with between 2 and `MAX_GROUP_SIZE` members. -/
def groupSizeInv (db : DB) : Prop :=
  ∀ c ∈ db.conversations, c.ctype = ConvType.group →
    c.participants.Nodup ∧ 2 ≤ c.participants.length ∧
      c.participants.length ≤ MAX_GROUP_SIZE

/-! ### Helper lemmas -/

theorem jsSetDedup_go_mem (l : List Nat) :
    ∀ (seen : List Nat) (a : Nat), a ∈ jsSetDedup.go l seen ↔ a ∈ l ∧ a ∉ seen := by
  induction l with
  | nil => intro seen a; simp [jsSetDedup.go]
  | cons x xs ih =>
    intro seen a
    by_cases hx : x ∈ seen
    · simp only [jsSetDedup.go, if_pos hx, ih, List.mem_cons]
      constructor
      · rintro ⟨ha, hs⟩; exact ⟨Or.inr ha, hs⟩
      · rintro ⟨ha | ha, hs⟩
        · exact absurd (ha ▸ hx) hs
        · exact ⟨ha, hs⟩
    · simp only [jsSetDedup.go, if_neg hx, List.mem_cons, ih]
      constructor
      · rintro (rfl | ⟨ha, hs⟩)
        · exact ⟨Or.inl rfl, hx⟩
        · exact ⟨Or.inr ha, fun h => hs (Or.inr h)⟩
      · rintro ⟨rfl | ha, hs⟩
        · exact Or.inl rfl
        · by_cases hax : a = x
          · exact Or.inl hax
          · exact Or.inr ⟨ha, by simp [List.mem_cons, hax, hs]⟩

theorem jsSetDedup_go_nodup (l : List Nat) :
    ∀ seen : List Nat, (jsSetDedup.go l seen).Nodup := by
  induction l with
  | nil => intro seen; simp [jsSetDedup.go]
  | cons x xs ih =>
    intro seen
    by_cases hx : x ∈ seen
    · simpa [jsSetDedup.go, if_pos hx] using ih seen
    · rw [jsSetDedup.go, if_neg hx]
      refine List.nodup_cons.mpr ⟨?_, ih (x :: seen)⟩
      intro hmem
      exact ((jsSetDedup_go_mem xs (x :: seen) x).mp hmem).2 (List.mem_cons_self x seen)

theorem jsSetDedup_mem (l : List Nat) (a : Nat) : a ∈ jsSetDedup l ↔ a ∈ l := by
  simp [jsSetDedup, jsSetDedup_go_mem]

theorem jsSetDedup_nodup (l : List Nat) : (jsSetDedup l).Nodup :=
  jsSetDedup_go_nodup l []

theorem jsSetDedup_go_length (l : List Nat) :
    ∀ seen : List Nat, (jsSetDedup.go l seen).length ≤ l.length := by
  induction l with
  | nil => intro seen; simp [jsSetDedup.go]
  | cons x xs ih =>
    intro seen
    by_cases hx : x ∈ seen
    · rw [jsSetDedup.go, if_pos hx]
      exact Nat.le_succ_of_le (ih seen)
    · rw [jsSetDedup.go, if_neg hx]
      simpa using Nat.succ_le_succ (ih (x :: seen))

theorem jsSetDedup_length_le (l : List Nat) : (jsSetDedup l).length ≤ l.length :=
  jsSetDedup_go_length l []

/-- A nodup list keeps at least its own length through `jsSetDedup` of any
extension. -/
theorem jsSetDedup_append_length_ge (l m : List Nat) (h : l.Nodup) :
    l.length ≤ (jsSetDedup (l ++ m)).length := by
  refine (List.subperm_of_subset h ?_).length_le
  intro a ha
  exact (jsSetDedup_mem _ a).mpr (List.mem_append_left m ha)

/-- `find?` only depends on the pointwise values of its predicate. -/
theorem find?_ext {α : Type} (p q : α → Bool) (l : List α) (h : ∀ a, p a = q a) :
    l.find? p = l.find? q := by
  induction l with
  | nil => rfl
  | cons x xs ih =>
    rw [List.find?_cons, List.find?_cons, h x]
    cases q x <;> simp [ih]

/-- Updating a user by id commutes with looking the user up by id. -/
theorem getUser_userUpdate (db : DB) (uid : Nat) (f : UserDoc → UserDoc)
    (hid : ∀ u, (f u).id = u.id) :
    getUser (userUpdate db uid f) uid = (getUser db uid).map f := by
  show (db.users.map _).find? _ = (db.users.find? _).map f
  induction db.users with
  | nil => rfl
  | cons u rest ih =>
    by_cases h : u.id = uid
    · simp [List.find?_cons, h, hid]
    · have hd : (decide (u.id = uid)) = false := by simp [h]
      simp only [List.map_cons, List.find?_cons, if_neg h, hd]
      exact ih

/-- The `$or` of the friendship lookup makes `areFriends` symmetric. -/
theorem areFriends_symm (db : DB) (u v : Nat) : areFriends db u v = areFriends db v u := by
  unfold areFriends
  induction db.friendships with
  | nil => rfl
  | cons f rest ih =>
    simp only [List.any_cons, ih]
    congr 1
    exact decide_eq_decide.mpr (by tauto)

/-- `areFriends` reads only the friendships collection. -/
theorem areFriends_congr (db db' : DB) (u v : Nat)
    (h : db.friendships = db'.friendships) : areFriends db u v = areFriends db' u v := by
  unfold areFriends
  rw [h]

/-- The read update leaves every message's conversation field unchanged and
only ever appends the reading user. -/
theorem markReadMsgs_mem (msgs : List Message) (uid cid : Nat) (m : Message)
    (hm : m ∈ markReadMsgs msgs uid cid) (hc : m.conversation = cid) : uid ∈ m.readBy := by
  rcases List.mem_map.mp hm with ⟨m₀, _, rfl⟩
  by_cases h : m₀.conversation = cid ∧ uid ∉ m₀.readBy
  · simp only [if_pos h, List.mem_append, List.mem_singleton]
    simp
  · simp only [if_neg h] at hc ⊢
    rcases not_and_or.mp h with h1 | h1
    · exact absurd hc h1
    · exact not_not.mp h1

/-- Applying the read update twice is the same as applying it once. -/
theorem markReadMsgs_idem (msgs : List Message) (uid cid : Nat) :
    markReadMsgs (markReadMsgs msgs uid cid) uid cid = markReadMsgs msgs uid cid := by
  unfold markReadMsgs
  rw [List.map_map]
  refine List.map_congr_left (fun m _ => ?_)
  by_cases h : m.conversation = cid ∧ uid ∉ m.readBy
  · simp only [Function.comp_apply, if_pos h]
    rw [if_neg (fun hh => hh.2 (List.mem_append_right _ (List.mem_singleton_self uid)))]
  · simp only [Function.comp_apply, if_neg h]

/-- Each message keeps its whole read-by list through the read update. -/
theorem markReadMsgs_additive (msgs : List Message) (uid cid : Nat) :
    List.Forall₂ (fun m m' => m.readBy ⊆ m'.readBy) msgs (markReadMsgs msgs uid cid) := by
  unfold markReadMsgs
  rw [List.forall₂_map_right_iff]
  refine List.forall₂_same.mpr (fun m _ => ?_)
  by_cases h : m.conversation = cid ∧ uid ∉ m.readBy
  · rw [if_pos h]
    exact fun x hx => List.mem_append_left _ hx
  · rw [if_neg h]
    exact fun x hx => hx

/-! ### Group membership invariant helpers -/

/-- Writing a participant list that is duplicate-free and within bounds
into any conversation keeps the group invariant. -/
theorem saveConvParticipants_inv (d : DB) (cid : Nat) (parts : List Nat)
    (h : groupSizeInv d) (hnd : parts.Nodup) (h2 : 2 ≤ parts.length)
    (h20 : parts.length ≤ MAX_GROUP_SIZE) :
    groupSizeInv (saveConvParticipants d cid parts) := by
  intro c hc hg
  rcases List.mem_map.mp hc with ⟨c₀, hc₀, rfl⟩
  by_cases hid : c₀.id = cid
  · rw [if_pos hid] at hg ⊢
    exact ⟨hnd, h2, h20⟩
  · rw [if_neg hid] at hg ⊢
    exact h c₀ hc₀ hg

/-- One member add/remove request preserves the group invariant. -/
theorem updateMembers_preserves_inv (d : DB) (u cid : Nat) (a : String) (m : List Nat)
    (h : groupSizeInv d) : groupSizeInv (updateMembers d u cid a m).1 := by
  cases hfind : d.conversations.find? (groupAdminPred cid u) with
  | none => simpa [updateMembers, hfind] using h
  | some conversation =>
    have hmem : conversation ∈ d.conversations := List.mem_of_find?_eq_some hfind
    have hprop := List.find?_some hfind
    simp only [groupAdminPred, decide_eq_true_eq] at hprop
    obtain ⟨hcid, hg, hadm⟩ := hprop
    obtain ⟨hnd, h2, h20⟩ := h conversation hmem hg
    by_cases ha : a = "add"
    · by_cases hsz : conversation.participants.length + m.length > MAX_GROUP_SIZE
      · simpa [updateMembers, hfind, ha, hsz] using h
      · by_cases hfr : m.all (fun x => areFriends d u x) = true
        · have hres : (updateMembers d u cid a m).1 =
              saveConvParticipants d cid (jsSetDedup (conversation.participants ++ m)) := by
            simp [updateMembers, hfind, ha, hsz, hfr]
          rw [hres]
          refine saveConvParticipants_inv d cid _ h (jsSetDedup_nodup _) ?_ ?_
          · exact le_trans h2 (jsSetDedup_append_length_ge conversation.participants m hnd)
          · have hle := jsSetDedup_length_le (conversation.participants ++ m)
            rw [List.length_append] at hle
            omega
        · simpa [updateMembers, hfind, ha, hsz, hfr] using h
    · by_cases hr : a = "remove"
      · by_cases hu : u ∈ m
        · simpa [updateMembers, hfind, ha, hr, hu] using h
        · by_cases hlen :
              (conversation.participants.filter (fun p => ! decide (p ∈ m))).length < 2
          · simpa [updateMembers, hfind, ha, hr, hu, hlen] using h
          · have hres : (updateMembers d u cid a m).1 =
                saveConvParticipants d cid
                  (conversation.participants.filter (fun p => ! decide (p ∈ m))) := by
              simp [updateMembers, hfind, ha, hr, hu, hlen]
            rw [hres]
            refine saveConvParticipants_inv d cid _ h (hnd.filter _) (by omega) ?_
            exact le_trans (List.length_filter_le _ _) h20
      · simpa [updateMembers, hfind, ha, hr] using h

/-- Every rejected member request (status other than 200) leaves the store
unchanged: all rejecting branches return before `conversation.save()`. -/
theorem updateMembers_reject_unchanged (d : DB) (u cid : Nat) (a : String) (m : List Nat)
    (h : ¬ (updateMembers d u cid a m).2 = 200) : (updateMembers d u cid a m).1 = d := by
  cases hfind : d.conversations.find? (groupAdminPred cid u) with
  | none => simp [updateMembers, hfind]
  | some conversation =>
    by_cases ha : a = "add"
    · by_cases hsz : conversation.participants.length + m.length > MAX_GROUP_SIZE
      · simp [updateMembers, hfind, ha, hsz]
      · by_cases hfr : m.all (fun x => areFriends d u x) = true
        · exfalso
          exact h (by simp [updateMembers, hfind, ha, hsz, hfr])
        · simp [updateMembers, hfind, ha, hsz, hfr]
    · by_cases hr : a = "remove"
      · by_cases hu : u ∈ m
        · simp [updateMembers, hfind, ha, hr, hu]
        · by_cases hlen :
              (conversation.participants.filter (fun p => ! decide (p ∈ m))).length < 2
          · simp [updateMembers, hfind, ha, hr, hu, hlen]
          · exfalso
            exact h (by simp [updateMembers, hfind, ha, hr, hu, hlen])
      · simp [updateMembers, hfind, ha, hr]

/-! ### The claims -/

/-- C1: a `message:send` by a user who is not a participant of the target
conversation (or names a conversation id that does not exist) leaves the
store untouched, attempts no store write, and emits exactly one `error`
event ("Conversation not found") addressed to the sender's own socket — an
event delivered only to that socket, and no event addressed to any room. -/
theorem send_by_nonparticipant_fails_privately
    (db : DB) (uid sid cid : Nat) (content : String) (now : Nat)
    (h : ∀ c ∈ db.conversations, c.id = cid → uid ∉ c.participants) :
    (messageSend db uid sid cid content now).db = db ∧
    (messageSend db uid sid cid content now).ops = [] ∧
    (messageSend db uid sid cid content now).events =
      [⟨EmitKind.toSocket sid, "error", Payload.errorMsg "Conversation not found"⟩] ∧
    (∀ conn : Conn,
      deliveredTo ⟨EmitKind.toSocket sid, "error", Payload.errorMsg "Conversation not found"⟩
        conn = true → conn.sid = sid) ∧
    (∀ e ∈ (messageSend db uid sid cid content now).events, e.kind = EmitKind.toSocket sid) := by
  have hf : findConvParticipant db cid uid = none := by
    apply List.find?_eq_none.mpr
    intro c hc
    simp only [decide_eq_true_eq, not_and]
    exact fun hid => h c hc hid
  have hm : messageSend db uid sid cid content now =
      ⟨db, [⟨EmitKind.toSocket sid, "error", Payload.errorMsg "Conversation not found"⟩], []⟩ := by
    simp [messageSend, hf]
  refine ⟨by rw [hm], by rw [hm], by rw [hm], ?_, ?_⟩
  · intro conn hd
    simpa [deliveredTo] using hd
  · rw [hm]
    intro e he
    simp only [List.mem_singleton] at he
    rw [he]

/-- Witness for C1: user 9 is a participant of no conversation in
`sampleDB`; the send fails privately with no store write. -/
theorem send_by_nonparticipant_fails_privately_witness :
    (∀ c ∈ sampleDB.conversations, c.id = 0 → (9 : Nat) ∉ c.participants) ∧
    (messageSend sampleDB 9 99 0 "hi" 5).db = sampleDB ∧
    (messageSend sampleDB 9 99 0 "hi" 5).ops = [] := by
  refine ⟨by decide, ?_, ?_⟩
  · exact (send_by_nonparticipant_fails_privately sampleDB 9 99 0 "hi" 5 (by decide)).1
  · exact (send_by_nonparticipant_fails_privately sampleDB 9 99 0 "hi" 5 (by decide)).2.1

/-- C10: the real-time `messages:read` handler performs no participant
check: for any user and conversation id — participant or not — it applies
the read update to all of the conversation's messages (every such message
then lists the caller in `readBy`) and emits `messages:read:update` to the
conversation's room; the REST mark-as-read for the same non-participant
caller replies 404 and leaves the store unchanged. -/
theorem socket_read_skips_participant_check
    (db : DB) (uid cid : Nat)
    (h : ∀ c ∈ db.conversations, c.id = cid → uid ∉ c.participants) :
    (messagesReadSocket db uid cid).1 =
      { db with messages := markReadMsgs db.messages uid cid } ∧
    (∀ m ∈ (messagesReadSocket db uid cid).1.messages, m.conversation = cid → uid ∈ m.readBy) ∧
    (messagesReadSocket db uid cid).2 =
      [⟨EmitKind.toRoomAll (convRoom cid), "messages:read:update", Payload.readUpdate cid uid⟩] ∧
    restMarkRead db uid cid = (db, 404) := by
  have hf : findConvParticipant db cid uid = none := by
    apply List.find?_eq_none.mpr
    intro c hc
    simp only [decide_eq_true_eq, not_and]
    exact fun hid => h c hc hid
  refine ⟨rfl, ?_, rfl, ?_⟩
  · exact fun m hm hc => markReadMsgs_mem db.messages uid cid m hm hc
  · simp [restMarkRead, hf]

/-- Witness for C10: user 9 participates in no conversation of `sampleDB`,
yet the socket handler marks conversation 0's message read by 9 while the
REST route replies 404 without mutating. -/
theorem socket_read_skips_participant_check_witness :
    (∀ c ∈ sampleDB.conversations, c.id = 0 → (9 : Nat) ∉ c.participants) ∧
    (messagesReadSocket sampleDB 9 0).1 =
      { sampleDB with messages := markReadMsgs sampleDB.messages 9 0 } ∧
    restMarkRead sampleDB 9 0 = (sampleDB, 404) := by
  refine ⟨by decide, ?_, ?_⟩
  · exact (socket_read_skips_participant_check sampleDB 9 0 (by decide)).1
  · exact (socket_read_skips_participant_check sampleDB 9 0 (by decide)).2.2.2

/-- C4: read-receipt application is idempotent and purely additive: for a
participant, running the socket handler (or the REST route) twice yields
the same stored messages as running it once, and both leave every
message's prior read-by entries in place (no user id is removed). -/
theorem mark_read_idempotent_and_additive
    (db : DB) (uid cid : Nat) (conv : Conversation)
    (hp : findConvParticipant db cid uid = some conv) :
    (messagesReadSocket (messagesReadSocket db uid cid).1 uid cid).1 =
      (messagesReadSocket db uid cid).1 ∧
    restMarkRead (restMarkRead db uid cid).1 uid cid = ((restMarkRead db uid cid).1, 200) ∧
    List.Forall₂ (fun m m' => m.readBy ⊆ m'.readBy) db.messages
      (restMarkRead db uid cid).1.messages ∧
    List.Forall₂ (fun m m' => m.readBy ⊆ m'.readBy) db.messages
      (messagesReadSocket db uid cid).1.messages := by
  have hp2 : findConvParticipant { db with messages := markReadMsgs db.messages uid cid }
      cid uid = some conv := hp
  refine ⟨?_, ?_, ?_, ?_⟩
  · simp [messagesReadSocket, markReadMsgs_idem]
  · simp [restMarkRead, hp, hp2, markReadMsgs_idem]
  · simp only [restMarkRead, hp]
    exact markReadMsgs_additive db.messages uid cid
  · exact markReadMsgs_additive db.messages uid cid

/-- Witness for C4: user 1 is a participant of conversation 0 in
`sampleDB`; marking twice equals marking once for both handlers. -/
theorem mark_read_idempotent_and_additive_witness :
    findConvParticipant sampleDB 0 1 =
      some ⟨0, ConvType.group, [1, 2], some "G", some 1, none⟩ ∧
    (messagesReadSocket (messagesReadSocket sampleDB 1 0).1 1 0).1 =
      (messagesReadSocket sampleDB 1 0).1 ∧
    restMarkRead (restMarkRead sampleDB 1 0).1 1 0 = ((restMarkRead sampleDB 1 0).1, 200) := by
  refine ⟨by decide, ?_, ?_⟩
  · exact (mark_read_idempotent_and_additive sampleDB 1 0
      ⟨0, ConvType.group, [1, 2], some "G", some 1, none⟩ (by decide)).1
  · exact (mark_read_idempotent_and_additive sampleDB 1 0
      ⟨0, ConvType.group, [1, 2], some "G", some 1, none⟩ (by decide)).2.1

/-- C9: after a connect for user `uid` the presence registry holds exactly
one entry for `uid` (a later connect overwrites an earlier one) mapping to
the new socket, and the user document is durably online; after the matching
disconnect at time `t2 ≥ t1` (the connect time) the registry entry is gone,
the user document is durably offline with `lastSeen = t2 ≥ t1`, and a
`user:offline` event is broadcast to exactly the other connections. -/
theorem presence_connect_then_disconnect
    (db : DB) (reg : List (Nat × Nat)) (uid sid t1 t2 : Nat) (u0 : UserDoc)
    (hu : getUser db uid = some u0) (ht : t1 ≤ t2) :
    regGet (connectHandler db reg uid sid).2.1 uid = some sid ∧
    ((connectHandler db reg uid sid).2.1.filter (fun e => decide (e.1 = uid))).length = 1 ∧
    (∀ s1 s2 : Nat, regGet (regSet (regSet reg uid s1) uid s2) uid = some s2) ∧
    getUser (connectHandler db reg uid sid).1 uid = some { u0 with isOnline := true } ∧
    regGet (disconnectHandler (connectHandler db reg uid sid).1
      (connectHandler db reg uid sid).2.1 uid sid t2).2.1 uid = none ∧
    getUser (disconnectHandler (connectHandler db reg uid sid).1
        (connectHandler db reg uid sid).2.1 uid sid t2).1 uid =
      some { u0 with isOnline := false, lastSeen := t2 } ∧
    t1 ≤ t2 ∧
    (disconnectHandler (connectHandler db reg uid sid).1
        (connectHandler db reg uid sid).2.1 uid sid t2).2.2 =
      [⟨EmitKind.broadcastExcept sid, "user:offline", Payload.presence uid⟩] ∧
    (∀ conn : Conn,
      deliveredTo ⟨EmitKind.broadcastExcept sid, "user:offline", Payload.presence uid⟩ conn
        = true ↔ ¬ conn.sid = sid) := by
  have hreg : ∀ (r : List (Nat × Nat)) (s : Nat), regGet (regSet r uid s) uid = some s := by
    intro r s
    simp [regGet, regSet, List.find?_cons]
  have hfil : ∀ (r : List (Nat × Nat)),
      ((r.filter (fun e => decide (¬ e.1 = uid))).filter (fun e => decide (e.1 = uid))) = [] := by
    intro r
    rw [List.filter_filter]
    apply List.filter_eq_nil_iff.mpr
    intro e _
    simp
  refine ⟨?_, ?_, fun s1 s2 => hreg _ s2, ?_, ?_, ?_, ht, rfl, ?_⟩
  · exact hreg reg sid
  · show ((regSet reg uid sid).filter _).length = 1
    simp [regSet, List.filter_cons, hfil reg]
  · show getUser (userUpdate db uid _) uid = _
    rw [getUser_userUpdate db uid (fun u => { u with isOnline := true }) (fun u => rfl), hu]
    rfl
  · show regGet (regDelete _ uid) uid = none
    simp only [regGet, regDelete, Option.map_eq_none']
    apply List.find?_eq_none.mpr
    intro e he
    simpa using (List.mem_filter.mp he).2
  · show getUser (userUpdate (userUpdate db uid _) uid _) uid = _
    rw [getUser_userUpdate _ uid (fun u => { u with isOnline := false, lastSeen := t2 })
        (fun u => rfl),
      getUser_userUpdate _ uid (fun u => { u with isOnline := true }) (fun u => rfl), hu]
    rfl
  · intro conn
    simp [deliveredTo]

/-- Witness for C9: user 2 of `sampleDB` connects on socket 42 at time 3
and disconnects at time 8. -/
theorem presence_connect_then_disconnect_witness :
    getUser sampleDB 2 = some ⟨2, false, 0⟩ ∧ (3 : Nat) ≤ 8 ∧
    regGet (connectHandler sampleDB [] 2 42).2.1 2 = some 42 ∧
    getUser (disconnectHandler (connectHandler sampleDB [] 2 42).1
        (connectHandler sampleDB [] 2 42).2.1 2 42 8).1 2 = some ⟨2, false, 8⟩ := by
  refine ⟨by decide, by decide, ?_, ?_⟩
  · exact (presence_connect_then_disconnect sampleDB [] 2 42 3 8 ⟨2, false, 0⟩
      (by decide) (by decide)).1
  · exact (presence_connect_then_disconnect sampleDB [] 2 42 3 8 ⟨2, false, 0⟩
      (by decide) (by decide)).2.2.2.2.2.1

/-- C8: when the admin of a group conversation leaves via the DELETE
route, the route replies 200 "Group deleted", every message of the
conversation is deleted along with the conversation document itself, and a
subsequent fetch of that conversation by any user replies 404. -/
theorem admin_leave_cascade_delete
    (db : DB) (admin cid : Nat) (conv : Conversation)
    (hf : findConvParticipant db cid admin = some conv)
    (hg : conv.ctype = ConvType.group)
    (ha : conv.admin = some admin) :
    (deleteConversation db admin cid).2.1 = 200 ∧
    (deleteConversation db admin cid).2.2 = "Group deleted" ∧
    (∀ m ∈ (deleteConversation db admin cid).1.messages, ¬ m.conversation = cid) ∧
    (∀ c ∈ (deleteConversation db admin cid).1.conversations, ¬ c.id = cid) ∧
    (∀ u : Nat, getConversation (deleteConversation db admin cid).1 u cid = 404) := by
  have hnp : ¬ conv.ctype = ConvType.personal := by
    rw [hg]; intro hx; exact ConvType.noConfusion hx
  have hd : deleteConversation db admin cid =
      ({ db with
          messages := db.messages.filter (fun m => decide (¬ m.conversation = cid)),
          conversations := db.conversations.filter (fun c => decide (¬ c.id = cid)) },
        200, "Group deleted") := by
    simp [deleteConversation, hf, hnp, ha]
  refine ⟨by rw [hd], by rw [hd], ?_, ?_, ?_⟩
  · rw [hd]
    intro m hm
    simpa using (List.mem_filter.mp hm).2
  · rw [hd]
    intro c hc
    simpa using (List.mem_filter.mp hc).2
  · intro u
    rw [hd]
    have hnone : findConvParticipant
        { db with
          messages := db.messages.filter (fun m => decide (¬ m.conversation = cid)),
          conversations := db.conversations.filter (fun c => decide (¬ c.id = cid)) }
        cid u = none := by
      apply List.find?_eq_none.mpr
      intro c hc
      have hne : ¬ c.id = cid := by simpa using (List.mem_filter.mp hc).2
      simp [hne]
    unfold getConversation
    rw [hnone]

/-- Witness for C8: user 1 is the admin of group conversation 0 in
`sampleDB`; after 1 leaves, user 2 can no longer fetch it. -/
theorem admin_leave_cascade_delete_witness :
    findConvParticipant sampleDB 0 1 =
      some ⟨0, ConvType.group, [1, 2], some "G", some 1, none⟩ ∧
    (deleteConversation sampleDB 1 0).2.2 = "Group deleted" ∧
    getConversation (deleteConversation sampleDB 1 0).1 2 0 = 404 := by
  refine ⟨by decide, ?_, ?_⟩
  · exact (admin_leave_cascade_delete sampleDB 1 0
      ⟨0, ConvType.group, [1, 2], some "G", some 1, none⟩ (by decide) rfl rfl).2.1
  · exact (admin_leave_cascade_delete sampleDB 1 0
      ⟨0, ConvType.group, [1, 2], some "G", some 1, none⟩ (by decide) rfl rfl).2.2.2.2 2

/-- C2: a valid send (sender a participant, trimmed content accepted by the
message schema) appends exactly one new Message whose read-by list is
exactly the sender, stores the conversation's `lastMessage` as the trimmed
content truncated to 100 characters with the sender and the current time,
and emits a single `message:receive` to the conversation's room — an event
delivered to every connection joined to that room, the sender's own
connection included. -/
theorem valid_send_appends_and_broadcasts
    (db : DB) (uid sid cid : Nat) (content : String) (now : Nat) (conv : Conversation)
    (hf : findConvParticipant db cid uid = some conv)
    (hv : msgContentValid (jsTrim content) = true) :
    (messageSend db uid sid cid content now).db.messages =
      db.messages ++ [⟨db.nextId, cid, uid, jsTrim content, [uid], now⟩] ∧
    (∀ c ∈ (messageSend db uid sid cid content now).db.conversations, c.id = cid →
      c.lastMessage = some ⟨jsSubstring (jsTrim content) 100, uid, now⟩) ∧
    (messageSend db uid sid cid content now).events =
      [⟨EmitKind.toRoomAll (convRoom cid), "message:receive",
        Payload.messageReceive db.nextId cid⟩] ∧
    (∀ conn : Conn, convRoom cid ∈ conn.rooms →
      deliveredTo ⟨EmitKind.toRoomAll (convRoom cid), "message:receive",
        Payload.messageReceive db.nextId cid⟩ conn = true) := by
  have hm : messageSend db uid sid cid content now =
      ⟨{ db with
          messages := db.messages ++ [⟨db.nextId, cid, uid, jsTrim content, [uid], now⟩],
          nextId := db.nextId + 1,
          conversations := db.conversations.map (fun c =>
            if c.id = cid then
              { c with lastMessage := some ⟨jsSubstring (jsTrim content) 100, uid, now⟩ }
            else c) },
        [⟨EmitKind.toRoomAll (convRoom cid), "message:receive",
          Payload.messageReceive db.nextId cid⟩],
        [StoreOp.messageCreate cid uid (jsTrim content), StoreOp.conversationSave cid]⟩ := by
    simp [messageSend, hf, hv]
  refine ⟨by rw [hm], ?_, by rw [hm], ?_⟩
  · rw [hm]
    intro c hc hcid
    rcases List.mem_map.mp hc with ⟨c₀, _, rfl⟩
    by_cases h0 : c₀.id = cid
    · rw [if_pos h0]
    · rw [if_neg h0] at hcid ⊢
      exact absurd hcid h0
  · intro conn hr
    simpa [deliveredTo] using hr

/-- Witness for C2: user 2 sends " hello " in conversation 0 of
`sampleDB`; one message is appended with read-by exactly {2} and the event
reaches a connection joined to the conversation-0 room. -/
theorem valid_send_appends_and_broadcasts_witness :
    findConvParticipant sampleDB 0 2 =
      some ⟨0, ConvType.group, [1, 2], some "G", some 1, none⟩ ∧
    msgContentValid (jsTrim " hello ") = true ∧
    (messageSend sampleDB 2 42 0 " hello " 9).db.messages =
      sampleDB.messages ++ [⟨10, 0, 2, "hello", [2], 9⟩] ∧
    deliveredTo ⟨EmitKind.toRoomAll (convRoom 0), "message:receive",
      Payload.messageReceive 10 0⟩ ⟨77, 1, [convRoom 0]⟩ = true := by
  refine ⟨by decide, by decide, ?_, ?_⟩
  · have := (valid_send_appends_and_broadcasts sampleDB 2 42 0 " hello " 9
      ⟨0, ConvType.group, [1, 2], some "G", some 1, none⟩ (by decide) (by decide)).1
    simpa using this
  · exact (valid_send_appends_and_broadcasts sampleDB 2 42 0 " hello " 9
      ⟨0, ConvType.group, [1, 2], some "G", some 1, none⟩ (by decide) (by decide)).2.2.2
      ⟨77, 1, [convRoom 0]⟩ (by decide)

/-- Counterexample to C3: participant 2 sends whitespace-only content in
conversation 0 of `sampleDB`.  The gateway performs no pre-write check: its
store-operation trace is the attempted `Message.create` — not empty as "no
store write before the failure" would require — and the private error is
the generic "Failed to send message" produced by the catch block, not an
input-validation report. -/
theorem gateway_no_prewrite_content_check_counterexample :
    (messageSend sampleDB 2 42 0 "   " 9).ops = [StoreOp.messageCreate 0 2 ""] ∧
    ¬ (messageSend sampleDB 2 42 0 "   " 9).ops = [] ∧
    (messageSend sampleDB 2 42 0 "   " 9).events =
      [⟨EmitKind.toSocket 42, "error", Payload.errorMsg "Failed to send message"⟩] := by
  decide

/-- C3 amended: when the trimmed content is rejected by the message schema
(empty, or longer than 2000 characters) and the conversation lookup
succeeds, the gateway itself performs no pre-write validation: it attempts
the `Message.create` store write, the storage-schema layer rejects it, and
the catch block reports the generic "Failed to send message" privately to
the sender; no Message record and no `lastMessage` update are stored. -/
theorem invalid_content_send_schema_rejection
    (db : DB) (uid sid cid : Nat) (content : String) (now : Nat) (conv : Conversation)
    (hf : findConvParticipant db cid uid = some conv)
    (hv : jsTrim content = "" ∨ 2000 < jsLength (jsTrim content)) :
    (messageSend db uid sid cid content now).db = db ∧
    (messageSend db uid sid cid content now).events =
      [⟨EmitKind.toSocket sid, "error", Payload.errorMsg "Failed to send message"⟩] ∧
    (messageSend db uid sid cid content now).ops =
      [StoreOp.messageCreate cid uid (jsTrim content)] ∧
    (∀ conn : Conn,
      deliveredTo ⟨EmitKind.toSocket sid, "error", Payload.errorMsg "Failed to send message"⟩
        conn = true → conn.sid = sid) := by
  have hvv : msgContentValid (jsTrim content) = false := by
    rcases hv with h | h
    · simp [msgContentValid, h]
    · simp [msgContentValid, Nat.not_le_of_lt h]
  have hm : messageSend db uid sid cid content now =
      ⟨db, [⟨EmitKind.toSocket sid, "error", Payload.errorMsg "Failed to send message"⟩],
        [StoreOp.messageCreate cid uid (jsTrim content)]⟩ := by
    simp [messageSend, hf, hvv]
  refine ⟨by rw [hm], by rw [hm], by rw [hm], ?_⟩
  · intro conn hd
    simpa [deliveredTo] using hd

/-- Witness for the amended C3 at the counterexample input. -/
theorem invalid_content_send_schema_rejection_witness :
    findConvParticipant sampleDB 0 2 =
      some ⟨0, ConvType.group, [1, 2], some "G", some 1, none⟩ ∧
    jsTrim "   " = "" ∧
    (messageSend sampleDB 2 42 0 "   " 9).db = sampleDB ∧
    (messageSend sampleDB 2 42 0 "   " 9).events =
      [⟨EmitKind.toSocket 42, "error", Payload.errorMsg "Failed to send message"⟩] := by
  refine ⟨by decide, by decide, ?_, ?_⟩
  · exact (invalid_content_send_schema_rejection sampleDB 2 42 0 "   " 9
      ⟨0, ConvType.group, [1, 2], some "G", some 1, none⟩ (by decide) (Or.inl (by decide))).1
  · exact (invalid_content_send_schema_rejection sampleDB 2 42 0 "   " 9
      ⟨0, ConvType.group, [1, 2], some "G", some 1, none⟩ (by decide) (Or.inl (by decide))).2.1

/-- Counterexample to C6: in `sampleDB`, group conversation 0 has exactly
the two participants 1 (admin) and 2.  The non-admin 2 leaves.  The claim
says the conversation is then deleted; instead it is saved with the single
remaining participant 1 — it still exists, with a participant count below
2. -/
theorem nonadmin_leave_below_two_keeps_conversation_counterexample :
    (deleteConversation sampleDB 2 0).2.1 = 200 ∧
    (deleteConversation sampleDB 2 0).2.2 = "Left group" ∧
    (deleteConversation sampleDB 2 0).1.conversations =
      [⟨0, ConvType.group, [1], some "G", some 1, none⟩,
       ⟨5, ConvType.personal, [1, 3], none, none, none⟩] ∧
    ¬ ((deleteConversation sampleDB 2 0).1.conversations.filter
        (fun c => decide (c.id = 0))) = [] := by
  decide

/-- C6 amended: a self-initiated leave by a non-admin group member is
always permitted (200 "Left group"), and the conversation is never deleted
by it: the member is filtered out of the participant list and the
conversation is saved, even when that leaves fewer than 2 participants. -/
theorem nonadmin_leave_always_permitted_never_deletes
    (db : DB) (uid cid : Nat) (conv : Conversation)
    (hf : findConvParticipant db cid uid = some conv)
    (hg : conv.ctype = ConvType.group)
    (hna : ¬ conv.admin = some uid) :
    (deleteConversation db uid cid).2.1 = 200 ∧
    (deleteConversation db uid cid).2.2 = "Left group" ∧
    (deleteConversation db uid cid).1 =
      saveConvParticipants db cid (conv.participants.filter (fun p => decide (¬ p = uid))) ∧
    (∃ c ∈ (deleteConversation db uid cid).1.conversations, c.id = cid) := by
  have hnp : ¬ conv.ctype = ConvType.personal := by
    rw [hg]; intro hx; exact ConvType.noConfusion hx
  have hd : deleteConversation db uid cid =
      (saveConvParticipants db cid (conv.participants.filter (fun p => decide (¬ p = uid))),
        200, "Left group") := by
    simp [deleteConversation, hf, hnp, hna]
  have hmem : conv ∈ db.conversations := List.mem_of_find?_eq_some hf
  have hcid : conv.id = cid := by
    have := List.find?_some hf
    simp only [decide_eq_true_eq] at this
    exact this.1
  refine ⟨by rw [hd], by rw [hd], by rw [hd], ?_⟩
  · rw [hd]
    refine ⟨if conv.id = cid then
        { conv with participants := conv.participants.filter (fun p => decide (¬ p = uid)) }
      else conv, ?_, ?_⟩
    · exact List.mem_map_of_mem _ hmem
    · rw [if_pos hcid]
      exact hcid

/-- Witness for the amended C6 at the counterexample input. -/
theorem nonadmin_leave_always_permitted_never_deletes_witness :
    findConvParticipant sampleDB 0 2 =
      some ⟨0, ConvType.group, [1, 2], some "G", some 1, none⟩ ∧
    (deleteConversation sampleDB 2 0).2.1 = 200 ∧
    (∃ c ∈ (deleteConversation sampleDB 2 0).1.conversations, c.id = 0) := by
  refine ⟨by decide, ?_, ?_⟩
  · exact (nonadmin_leave_always_permitted_never_deletes sampleDB 2 0
      ⟨0, ConvType.group, [1, 2], some "G", some 1, none⟩ (by decide) rfl (by decide)).1
  · exact (nonadmin_leave_always_permitted_never_deletes sampleDB 2 0
      ⟨0, ConvType.group, [1, 2], some "G", some 1, none⟩ (by decide) rfl (by decide)).2.2.2

/-- C7: personal-conversation creation is idempotent per unordered pair:
for accepted friends `a ≠ b`, creating from `a` with `[b]` and then from
`b` with `[a]` leaves the store of the first call unchanged, returns the
same conversation id both times (never `none`), and when no personal
conversation of the pair existed before, exactly one exists afterwards. -/
theorem personal_creation_idempotent
    (db : DB) (a b : Nat) (hab : ¬ a = b) (hfr : areFriends db a b = true) :
    (createPersonalConversation (createPersonalConversation db a [b]).db b [a]).db =
      (createPersonalConversation db a [b]).db ∧
    (createPersonalConversation (createPersonalConversation db a [b]).db b [a]).convId =
      (createPersonalConversation db a [b]).convId ∧
    ¬ (createPersonalConversation db a [b]).convId = none ∧
    (personalPairCount db a b = 0 →
      personalPairCount (createPersonalConversation db a [b]).db a b = 1) := by
  have hba : ¬ b = a := fun h => hab h.symm
  have hd1 : jsSetDedup (a :: [b]) = [a, b] := by
    simp [jsSetDedup, jsSetDedup.go, hba]
  have hd2 : jsSetDedup (b :: [a]) = [b, a] := by
    simp [jsSetDedup, jsSetDedup.go, hab]
  have hpq : ∀ c : Conversation, personalPairPred [b, a] c = personalPairPred [a, b] c := by
    intro c
    unfold personalPairPred
    refine decide_eq_decide.mpr ?_
    constructor
    · rintro ⟨h1, h2, h3⟩
      refine ⟨h1, ?_, h3⟩
      intro p hp
      apply h2
      simp only [List.mem_cons, List.not_mem_nil, or_false] at hp ⊢
      tauto
    · rintro ⟨h1, h2, h3⟩
      refine ⟨h1, ?_, h3⟩
      intro p hp
      apply h2
      simp only [List.mem_cons, List.not_mem_nil, or_false] at hp ⊢
      tauto
  have hpair : ∀ c : Conversation, personalPairPred [a, b] c =
      (fun c : Conversation => decide (c.ctype = ConvType.personal
        ∧ a ∈ c.participants ∧ b ∈ c.participants ∧ c.participants.length = 2)) c := by
    intro c
    unfold personalPairPred
    refine decide_eq_decide.mpr ?_
    constructor
    · rintro ⟨h1, h2, h3⟩
      exact ⟨h1, h2 a (by simp), h2 b (by simp), h3⟩
    · rintro ⟨h1, h2, h3, h4⟩
      refine ⟨h1, ?_, h4⟩
      intro p hp
      rcases List.mem_cons.mp hp with rfl | hp'
      · exact h2
      · rcases List.mem_cons.mp hp' with rfl | hp''
        · exact h3
        · exact absurd hp'' (List.not_mem_nil p)
  have hfr2 : areFriends db b a = true := by rw [areFriends_symm]; exact hfr
  cases hfind : db.conversations.find? (personalPairPred [a, b]) with
  | some ex =>
    have e1 : createPersonalConversation db a [b] = ⟨db, 200, some ex.id⟩ := by
      simp [createPersonalConversation, hd1, hfr, hfind]
    have hfind2 : db.conversations.find? (personalPairPred [b, a]) = some ex := by
      rw [find?_ext _ _ _ hpq]
      exact hfind
    have e2 : createPersonalConversation db b [a] = ⟨db, 200, some ex.id⟩ := by
      simp [createPersonalConversation, hd2, hfr2, hfind2]
    refine ⟨by simp [e1, e2], by simp [e1, e2], by simp [e1], ?_⟩
    · intro h0
      exfalso
      have hmem : ex ∈ db.conversations.filter (fun c => decide (c.ctype = ConvType.personal
          ∧ a ∈ c.participants ∧ b ∈ c.participants ∧ c.participants.length = 2)) := by
        refine List.mem_filter.mpr ⟨List.mem_of_find?_eq_some hfind, ?_⟩
        have h := List.find?_some hfind
        rw [hpair ex] at h
        exact h
      have hpos : 0 < personalPairCount db a b := List.length_pos_of_mem hmem
      omega
  | none =>
    have e1 : createPersonalConversation db a [b] =
        ⟨{ db with
            conversations := db.conversations ++
              [⟨db.nextId, ConvType.personal, [a, b], none, none, none⟩],
            nextId := db.nextId + 1 },
          201, some db.nextId⟩ := by
      simp [createPersonalConversation, hd1, hfr, hfind]
    have hnewc : personalPairPred [b, a]
        ⟨db.nextId, ConvType.personal, [a, b], none, none, none⟩ = true := by
      unfold personalPairPred
      apply decide_eq_true
      refine ⟨rfl, ?_, rfl⟩
      intro p hp
      simp only [List.mem_cons, List.not_mem_nil, or_false] at hp ⊢
      tauto
    have hfind2 : (db.conversations ++
        [(⟨db.nextId, ConvType.personal, [a, b], none, none, none⟩ : Conversation)]).find?
          (personalPairPred [b, a]) =
        some ⟨db.nextId, ConvType.personal, [a, b], none, none, none⟩ := by
      rw [List.find?_append]
      have h0 : db.conversations.find? (personalPairPred [b, a]) = none := by
        rw [find?_ext _ _ _ hpq]
        exact hfind
      rw [h0, List.find?_cons_of_pos _ hnewc]
      rfl
    have e2 : createPersonalConversation
        { db with
            conversations := db.conversations ++
              [⟨db.nextId, ConvType.personal, [a, b], none, none, none⟩],
            nextId := db.nextId + 1 } b [a] =
        ⟨{ db with
            conversations := db.conversations ++
              [⟨db.nextId, ConvType.personal, [a, b], none, none, none⟩],
            nextId := db.nextId + 1 },
          200, some db.nextId⟩ := by
      have hfr3 : areFriends
          { db with
              conversations := db.conversations ++
                [⟨db.nextId, ConvType.personal, [a, b], none, none, none⟩],
              nextId := db.nextId + 1 } b a = true := hfr2
      simp [createPersonalConversation, hd2, hfr3, hfind2]
    refine ⟨by simp [e1, e2], by simp [e1, e2], by simp [e1], ?_⟩
    · intro h0
      have h0' : db.conversations.filter (fun c => decide (c.ctype = ConvType.personal
          ∧ a ∈ c.participants ∧ b ∈ c.participants ∧ c.participants.length = 2)) = [] :=
        List.length_eq_zero.mp h0
      rw [e1]
      show (List.filter _ (db.conversations ++ _)).length = 1
      rw [List.filter_append, h0']
      simp

/-- Witness for C7: users 1 and 3 of `sampleDB` are accepted friends and
already share personal conversation 5; creating the 1-3 personal
conversation from both sides returns the same conversation both times and
leaves the store unchanged. -/
theorem personal_creation_idempotent_witness :
    ¬ (1 : Nat) = 3 ∧ areFriends sampleDB 1 3 = true ∧
    (createPersonalConversation (createPersonalConversation sampleDB 1 [3]).db 3 [1]).convId =
      (createPersonalConversation sampleDB 1 [3]).convId ∧
    (createPersonalConversation (createPersonalConversation sampleDB 1 [3]).db 3 [1]).db =
      (createPersonalConversation sampleDB 1 [3]).db := by
  refine ⟨by decide, by decide, ?_, ?_⟩
  · exact (personal_creation_idempotent sampleDB 1 3 (by decide) (by decide)).2.1
  · exact (personal_creation_idempotent sampleDB 1 3 (by decide) (by decide)).1

/-- C5: for every group conversation satisfying the participant invariant
(duplicate-free, 2 to 20 members), any sequence of member add/remove
requests keeps the participant count within [2, 20]; and every rejected
request (status other than 200) leaves the stored participant set
unchanged — in particular any request that would breach the bounds is
rejected by the handler's size guards with no state change. -/
theorem group_member_ops_size_invariant
    (db : DB) (ops : List MemberOp) (h : groupSizeInv db) :
    groupSizeInv (applyMemberOps db ops) ∧
    ∀ (d : DB) (u cid : Nat) (a : String) (m : List Nat),
      ¬ (updateMembers d u cid a m).2 = 200 → (updateMembers d u cid a m).1 = d := by
  constructor
  · induction ops generalizing db with
    | nil => exact h
    | cons op rest ih => exact ih _ (updateMembers_preserves_inv _ _ _ _ _ h)
  · exact updateMembers_reject_unchanged

/-- Witness for C5: `sampleDB` satisfies the invariant; admin 1 adds friend
3 to group 0 and then asks to remove both 2 and 3 (which would leave one
member and is rejected); the invariant still holds afterwards, and the
rejected removal left the store of the first step unchanged. -/
theorem group_member_ops_size_invariant_witness :
    groupSizeInv sampleDB ∧
    groupSizeInv (applyMemberOps sampleDB
      [⟨1, 0, "add", [3]⟩, ⟨1, 0, "remove", [2, 3]⟩]) ∧
    (updateMembers (updateMembers sampleDB 1 0 "add" [3]).1 1 0 "remove" [2, 3]).2 = 400 ∧
    (updateMembers (updateMembers sampleDB 1 0 "add" [3]).1 1 0 "remove" [2, 3]).1 =
      (updateMembers sampleDB 1 0 "add" [3]).1 := by
  refine ⟨by unfold groupSizeInv; decide, ?_, by decide, ?_⟩
  · exact (group_member_ops_size_invariant sampleDB
      [⟨1, 0, "add", [3]⟩, ⟨1, 0, "remove", [2, 3]⟩] (by unfold groupSizeInv; decide)).1
  · exact (group_member_ops_size_invariant sampleDB [] (by unfold groupSizeInv; decide)).2
      (updateMembers sampleDB 1 0 "add" [3]).1 1 0 "remove" [2, 3] (by decide)

end Notetake
